import Mathlib

/-!
Verification of the U-Boot SquashFS reader (fs/squashfs/sqfs.c).

This file gives a shallow embedding of the functions of sqfs.c that the
frozen claims are about, and proves or refutes each claim against that
embedding.  Definitions are translated from the C source; a handful of
constants and helpers live in headers that are not part of the provided
sources (sqfs_filesystem.h, sqfs_utils.h, fs.h) and are modelled from the
specification's description of the on-disk format (spec sections 3 and 6),
as indicated by their doc comments.

Modelling conventions:
  * machine integers are Nat (all relevant values are non-negative), with
    explicit truncation (mod / testBit) where the C masks bits;
  * byte buffers are functions Nat -> Nat (the disk) or Nat -> Option Nat
    (the caller's output buffer, so that untouched positions are visible);
  * the block-device collaborator is a function returning the number of
    blocks actually read; the decompressor collaborator is a function from
    (destination capacity, source bytes) to an optional byte list;
  * device reads performed by the code are accumulated in an explicit log
    of (start_lba, nr_blocks) pairs so that "no device read happens" is a
    provable statement;
  * heap ownership in sqfs_probe is tracked by a boolean recording whether
    the superblock allocation is still live when probe returns.
-/

/-- Modelled from the spec: the SquashFS magic number 0x73717368
(spec section 6; the constant lives in sqfs_filesystem.h, not under src/). -/
def SQFS_MAGIC_NUMBER : Nat := 0x73717368

/-- Modelled from the spec: a decompressed metadata block is at most 8 KiB
(spec section 3; constant from sqfs_filesystem.h). -/
def SQFS_METADATA_BLOCK_SIZE : Nat := 8192

/-- Modelled from the spec: a directory header is three 32-bit words:
count, start, inode_number (spec section 3; constant from sqfs_filesystem.h). -/
def SQFS_DIR_HEADER_SIZE : Nat := 12

/-- Modelled from the spec: the fixed part of a directory entry is four
16-bit words: offset, inode_offset, type, name_size (spec section 3;
constant from sqfs_filesystem.h). -/
def SQFS_ENTRY_BASE_LENGTH : Nat := 8

/-- Modelled from the spec: an empty directory's file_size is the
three-byte sentinel (spec section 4.5; constant from sqfs_filesystem.h). -/
def SQFS_EMPTY_FILE_SIZE : Nat := 3

/-- Modelled from the spec: SquashFS inode type tags (spec section 3 lists
the recognized variants; numeric values are the bit-exact SquashFS >= 4.0
on-disk values, spec section 6; constants from sqfs_filesystem.h). -/
def SQFS_DIR_TYPE : Nat := 1
def SQFS_REG_TYPE : Nat := 2
def SQFS_SYMLINK_TYPE : Nat := 3
def SQFS_BLKDEV_TYPE : Nat := 4
def SQFS_CHRDEV_TYPE : Nat := 5
def SQFS_FIFO_TYPE : Nat := 6
def SQFS_SOCKET_TYPE : Nat := 7
def SQFS_LDIR_TYPE : Nat := 8
def SQFS_LREG_TYPE : Nat := 9
def SQFS_LSYMLINK_TYPE : Nat := 10
def SQFS_LBLKDEV_TYPE : Nat := 11
def SQFS_LCHRDEV_TYPE : Nat := 12
def SQFS_LFIFO_TYPE : Nat := 13
def SQFS_LSOCKET_TYPE : Nat := 14

/-- Modelled from the spec: directory-entry types surfaced to the host
dispatcher, "type in DIR, REG, LNK, OTHER" (spec section 6; the FS_DT_x
constants live in fs.h, not under src/; SQFS_MISC_ENTRY_TYPE is the
OTHER marker from sqfs_filesystem.h).  Only distinctness matters here. -/
def FS_DT_DIR : Nat := 4
def FS_DT_REG : Nat := 8
def FS_DT_LNK : Nat := 10
def SQFS_MISC_ENTRY_TYPE : Nat := 0

/-- Modelled from the spec: SQFS_BLOCK_SIZE(A) from sqfs_utils.h (not under
src/): the low 24 bits of a data-block size word are the on-disk length
(spec section 6). -/
def SQFS_BLOCK_SIZE (a : Nat) : Nat := a % 16777216

/-- Modelled from the spec: SQFS_COMPRESSED_BLOCK(A) from sqfs_utils.h (not
under src/): bit 24 clear means compressed, set means uncompressed
(spec section 6). -/
def SQFS_COMPRESSED_BLOCK (a : Nat) : Bool := !(a.testBit 24)

/-- Modelled from the spec: SQFS_IS_FRAGMENTED(A) from sqfs_utils.h (not
under src/): the fragment index sentinel 0xFFFFFFFF means "no fragment"
(spec sections 3 and 8). -/
def SQFS_IS_FRAGMENTED (a : Nat) : Bool := a != 4294967295

/-- The block-device collaborator (spec section 6): blksz is the logical
block size, dread start_lba nr_blocks returns the number of blocks
actually read (blk_dread). -/
structure blk_desc where
  blksz : Nat
  dread : Nat → Nat → Nat

/-- The relevant fields of struct squashfs_super_block (sqfs.c reads them
with get_unaligned_le32/le64; all fields here are already-decoded
little-endian values). -/
structure squashfs_super_block where
  s_magic : Nat
  inodes : Nat
  block_size : Nat
  fragments : Nat
  inode_table_start : Nat
  directory_table_start : Nat
  fragment_table_start : Nat
  export_table_start : Nat
  id_table_start : Nat
  bytes_used : Nat

/-- The process-wide reader context (static struct squashfs_ctxt ctxt in
sqfs.c): current device, partition start sector, superblock pointer. -/
structure squashfs_ctxt where
  cur_dev : Option blk_desc
  cur_part_start : Nat
  sblk : Option squashfs_super_block

/-- sqfs_disk_read (sqfs.c lines 28-42): returns -1 without touching the
device when ctxt.cur_dev is NULL; otherwise calls blk_dread at
cur_part_info.start + block and returns -1 on a short read, else the
block count.  The second component logs the device reads performed. -/
def sqfs_disk_read (c : squashfs_ctxt) (block nr_blocks : Nat) :
    Int × List (Nat × Nat) :=
  match c.cur_dev with
  | none => (-1, [])
  | some dev =>
    let ret := dev.dread (c.cur_part_start + block) nr_blocks
    ((if ret ≠ nr_blocks then -1 else (ret : Int)),
     [(c.cur_part_start + block, nr_blocks)])

/-- Result of sqfs_probe: the return value, the context it leaves behind,
and whether the superblock heap allocation made by sqfs_read_sblk is
still live (i.e. was never freed) when probe returns. -/
structure probe_result where
  ret : Int
  ctxt : squashfs_ctxt
  sblk_alloc_live : Bool

/-- sqfs_probe (sqfs.c lines 1002-1032).  read_ok stands for the success of
the device read in sqfs_read_sblk (lines 44-56; on failure read_sblk
frees the buffer and probe returns with cur_dev still set).  On a bad
magic the code clears cur_dev and returns -EINVAL without freeing the
superblock buffer.  decomp_init_ok stands for the decompressor
collaborator's init result; on its failure the code clears cur_dev and
frees ctxt.sblk. -/
def sqfs_probe (fs_dev_desc : blk_desc) (part_start : Nat)
    (read_ok : Bool) (sblk : squashfs_super_block)
    (decomp_init_ok : Bool) : probe_result :=
  let c0 : squashfs_ctxt :=
    { cur_dev := some fs_dev_desc, cur_part_start := part_start, sblk := none }
  if !read_ok then
    { ret := -22, ctxt := c0, sblk_alloc_live := false }
  else if sblk.s_magic ≠ SQFS_MAGIC_NUMBER then
    { ret := -22, ctxt := { c0 with cur_dev := none }, sblk_alloc_live := true }
  else
    let c1 : squashfs_ctxt := { c0 with sblk := some sblk }
    if !decomp_init_ok then
      { ret := -22, ctxt := { c1 with cur_dev := none }, sblk_alloc_live := false }
    else
      { ret := 0, ctxt := c1, sblk_alloc_live := true }

/-- The table-offset ordering condition asserted by the specification
(spec section 8, invariant 1): inode < directory < fragment <= export <=
id <= image end.  This definition follows the spec's words, to be
compared with what sqfs_probe actually checks. -/
def spec_table_offsets_ordered (sb : squashfs_super_block) : Prop :=
  sb.inode_table_start < sb.directory_table_start ∧
  sb.directory_table_start < sb.fragment_table_start ∧
  sb.fragment_table_start ≤ sb.export_table_start ∧
  sb.export_table_start ≤ sb.id_table_start ∧
  sb.id_table_start ≤ sb.bytes_used

/-- struct squashfs_reg_inode: the fields sqfs_get_regfile_info reads
(file_size, offset, start_block, fragment; all u32). -/
structure squashfs_reg_inode where
  file_size : Nat
  offset : Nat
  start_block : Nat
  fragment : Nat
deriving DecidableEq

/-- struct squashfs_lreg_inode: the fields sqfs_get_lregfile_info reads
(file_size and start_block are 64-bit here). -/
structure squashfs_lreg_inode where
  file_size : Nat
  offset : Nat
  start_block : Nat
  fragment : Nat
deriving DecidableEq

/-- struct squashfs_fragment_block_entry: start (u64) and size (u32 whose
bit 24 is the uncompressed flag). -/
structure squashfs_fragment_block_entry where
  start : Nat
  size : Nat
deriving DecidableEq

/-- struct squashfs_file_info, minus the blk_sizes pointer, which the model
keeps as a separate list. -/
structure squashfs_file_info where
  size : Nat
  offset : Nat
  start : Nat
  frag : Bool
  comp : Bool
deriving DecidableEq

/-- sqfs_get_regfile_info (sqfs.c lines 1137-1173).  frag_lookup stands for
sqfs_frag_lookup: none models a negative return.  On success the C code
returns the data-block count and has filled finfo and fentry; the model
returns the triple.  Note that when the file is fragmented, finfo.comp
is set to true unconditionally, discarding sqfs_frag_lookup's
compressed-flag return value. -/
def sqfs_get_regfile_info (reg : squashfs_reg_inode) (blksz : Nat)
    (frag_lookup : Nat → Option squashfs_fragment_block_entry) :
    Option (squashfs_file_info × Nat × Option squashfs_fragment_block_entry) :=
  let finfo0 : squashfs_file_info :=
    { size := reg.file_size, offset := reg.offset, start := reg.start_block,
      frag := SQFS_IS_FRAGMENTED reg.fragment, comp := false }
  if finfo0.frag ∧ finfo0.offset = 4294967295 then none
  else if finfo0.size < 1 ∨ finfo0.start = 4294967295 then none
  else if finfo0.frag then
    match frag_lookup reg.fragment with
    | none => none
    | some fentry =>
      let finfo := { finfo0 with comp := true }
      if fentry.size < 1 ∨ fentry.start = 2147483647 then none
      else some (finfo, finfo.size / blksz, some fentry)
  else
    some (finfo0, (finfo0.size + blksz - 1) / blksz, none)

/-- sqfs_get_lregfile_info (sqfs.c lines 1175-1211); identical shape to the
regular-inode decoder except for the 64-bit fields and the
start == 0x7FFFFFFF sanity check. -/
def sqfs_get_lregfile_info (lreg : squashfs_lreg_inode) (blksz : Nat)
    (frag_lookup : Nat → Option squashfs_fragment_block_entry) :
    Option (squashfs_file_info × Nat × Option squashfs_fragment_block_entry) :=
  let finfo0 : squashfs_file_info :=
    { size := lreg.file_size, offset := lreg.offset, start := lreg.start_block,
      frag := SQFS_IS_FRAGMENTED lreg.fragment, comp := false }
  if finfo0.frag ∧ finfo0.offset = 4294967295 then none
  else if finfo0.size < 1 ∨ finfo0.start = 2147483647 then none
  else if finfo0.frag then
    match frag_lookup lreg.fragment with
    | none => none
    | some fentry =>
      let finfo := { finfo0 with comp := true }
      if fentry.size < 1 ∨ fentry.start = 2147483647 then none
      else some (finfo, finfo.size / blksz, some fentry)
  else
    some (finfo0, (finfo0.size + blksz - 1) / blksz, none)

/-- memcpy of a byte list into the caller's output buffer at position pos;
positions never written stay none. -/
def bufWrite (buf : Nat → Option Nat) (pos : Nat) (bytes : List Nat) :
    Nat → Option Nat :=
  fun i =>
    if pos ≤ i ∧ i < pos + bytes.length then some (bytes.getD (i - pos) 0)
    else buf i

/-- The n bytes of the device image starting at byte position pos.  The C
code reads whole device blocks into a bounce buffer and then uses the
bytes at data_offset; the composition is exactly these bytes. -/
def diskBytes (disk : Nat → Nat) (pos n : Nat) : List Nat :=
  (List.range n).map (fun i => disk (pos + i))

/-- The data-block loop of sqfs_read (sqfs.c lines 1336-1379), one
recursion step per block.  Arguments after the semicolon-like fixed
parameters: remaining blk_sizes, data_offset, actread, output buffer,
log of (start_lba, n_blks) device reads.  Each iteration computes
start = data_offset / blksz, table_size = SQFS_BLOCK_SIZE(s_j),
table_offset = data_offset - start * blksz,
n_blks = DIV_ROUND_UP(table_size + table_offset, blksz), issues the
device read, and either decompresses (bit 24 of s_j clear) into the
buffer at buf + offset + actread or copies the raw table_size bytes
there.  decomp cap src models sqfs_decompress with destination
capacity cap; none models a non-zero return. -/
def sqfs_read_datablocks (blksz : Nat) (disk : Nat → Nat)
    (decomp : Nat → List Nat → Option (List Nat))
    (block_size : Nat) (offset : Nat) :
    List Nat → Nat → Nat → (Nat → Option Nat) → List (Nat × Nat) →
    List (Nat × Nat) × Option ((Nat → Option Nat) × Nat × Nat)
  | [], data_offset, actread, buf, log => (log, some (buf, actread, data_offset))
  | s :: rest, data_offset, actread, buf, log =>
    let start := data_offset / blksz
    let table_size := SQFS_BLOCK_SIZE s
    let table_offset := data_offset - start * blksz
    let n_blks := (table_size + table_offset + blksz - 1) / blksz
    let log := log ++ [(start, n_blks)]
    let data := diskBytes disk data_offset table_size
    if SQFS_COMPRESSED_BLOCK s then
      match decomp block_size data with
      | none => (log, none)
      | some out =>
        sqfs_read_datablocks blksz disk decomp block_size offset rest
          (data_offset + table_size) (actread + out.length)
          (bufWrite buf (offset + actread) out) log
    else
      sqfs_read_datablocks blksz disk decomp block_size offset rest
        (data_offset + table_size) (actread + table_size)
        (bufWrite buf (offset + actread) data) log

/-- The fragment-tail copy loop of sqfs_read (sqfs.c lines 1424-1427 and
1434-1437): for (j = offset + actread; j < finfo.size; j++)
buf[j] = fragment_block[finfo.offset + j].  j is the first argument,
the remaining iteration count the second.  An index past the end of
fragment_block is a heap overread in the C code; the model returns 0
for such bytes (List.getD's default). -/
def sqfs_frag_tail (fragment_block : List Nat) (foff : Nat) :
    Nat → Nat → (Nat → Option Nat) → (Nat → Option Nat)
  | _, 0, buf => buf
  | j, n + 1, buf =>
    sqfs_frag_tail fragment_block foff (j + 1) n
      (fun i => if i = j then some (fragment_block.getD (foff + j) 0) else buf i)

/-- sqfs_read from the point where the regular inode has been located
(sqfs.c lines 1270-1282 and 1317-1447): decode the inode via
sqfs_get_regfile_info, memcpy the per-block size words (raw_blk_sizes
are the u32 words following the inode in the inode table), apply the
len sanity check (len != 0 and len > finfo.size fails; otherwise
finfo.size = len), run the data-block loop, then the fragment tail.
Returns the accumulated device-read log and, on success, the output
buffer with the final actread. -/
def sqfs_read_inode (blksz : Nat) (disk : Nat → Nat)
    (decomp : Nat → List Nat → Option (List Nat))
    (frag_lookup : Nat → Option squashfs_fragment_block_entry)
    (block_size : Nat) (reg : squashfs_reg_inode) (raw_blk_sizes : List Nat)
    (offset len : Nat) :
    List (Nat × Nat) × Option ((Nat → Option Nat) × Nat) :=
  match sqfs_get_regfile_info reg block_size frag_lookup with
  | none => ([], none)
  | some (finfo, datablk_count, fentry?) =>
    let blk_sizes := raw_blk_sizes.take datablk_count
    if len ≠ 0 ∧ len > finfo.size then ([], none)
    else
      let fsize := if len ≠ 0 then len else finfo.size
      match sqfs_read_datablocks blksz disk decomp block_size offset
          blk_sizes finfo.start 0 (fun _ => none) [] with
      | (log, none) => (log, none)
      | (log, some (buf, actread, _)) =>
        if !finfo.frag then (log, some (buf, actread))
        else
          match fentry? with
          | none => (log, none)
          | some fentry =>
            let start := fentry.start / blksz
            let table_size := SQFS_BLOCK_SIZE fentry.size
            let table_offset := fentry.start - start * blksz
            let n_blks := (table_size + table_offset + blksz - 1) / blksz
            let log := log ++ [(start, n_blks)]
            if finfo.comp then
              match decomp block_size (diskBytes disk fentry.start fentry.size) with
              | none => (log, none)
              | some fragment_block =>
                let n := fsize - (offset + actread)
                (log, some (sqfs_frag_tail fragment_block finfo.offset
                              (offset + actread) n buf, actread + n))
            else
              let fragment_block := diskBytes disk fentry.start table_size
              let n := fsize - (offset + actread)
              (log, some (sqfs_frag_tail fragment_block finfo.offset
                            (offset + actread) n buf, actread + n))

/-- The view of an inode that the directory-walker model needs: a directory
with its name -> inode-number entries (the readdir scan in
sqfs_search_dir linearly compares names, modelled by List.lookup), a
symlink with its already-tokenized target path, or anything else
(regular files and the unhandled device/fifo/socket types all make
sqfs_is_dir false).  The byte-level table plumbing is orthogonal to the
recursion structure this model serves. -/
inductive sqfs_inode where
  | dir (entries : List (String × Nat))
  | symlink (target : List String)
  | other
deriving DecidableEq

/-- Errors sqfs_search_dir can surface: -EINVAL ("Cannot find directory",
non-directory component) and SQFS_EMPTY_DIR (the empty-directory marker,
a non-zero return that makes sqfs_opendir fail). -/
inductive sqfs_search_err where
  | einval
  | emptyDir
deriving DecidableEq

/-- sqfs_clean_base_path + the two sqfs_join calls of sqfs_get_abs_path
(sqfs.c lines 317-398), at token level: count the ".." occurrences in
the relative path, drop that many tokens plus one from the end of the
base path (failing like the C code when the count goes negative), and
append the relative tokens from index updir on. -/
def sqfs_get_abs_path (base rel : List String) : Option (List String) :=
  let updir := (rel.filter (fun t => t = "..")).length
  if base.length < updir + 1 then none
  else some (base.take (base.length - updir - 1) ++ rel.drop updir)

/-- sqfs_search_dir (sqfs.c lines 432-578).  fuel is an explicit recursion
budget: the C function recurses on itself at every symlink (line 534)
with no depth counter, so the model returns none when the budget runs
out; a result of some r means the C recursion finishes with r.  cur is
the current directory's inode number, done the already-consumed tokens
(token_list[0..j], the symlink resolution base), todo the remaining
tokens.  Per iteration: the current inode must be a directory, the
token is matched against the entries (the sqfs_readdir scan), and the
found inode is either a symlink (rebuild the token list from the
resolved absolute path plus the unconsumed tokens and recurse from the
root), an empty directory (return SQFS_EMPTY_DIR), a directory
(descend), or anything else (-EINVAL). -/
def sqfs_search_dir (img : Nat → sqfs_inode) (root : Nat) :
    Nat → Nat → List String → List String →
    Option (Except sqfs_search_err Nat)
  | 0, _, _, _ => none
  | fuel + 1, cur, done, todo =>
    match todo with
    | [] => some (Except.ok cur)
    | t :: rest =>
      match img cur with
      | sqfs_inode.dir entries =>
        match entries.lookup t with
        | none => some (Except.error sqfs_search_err.einval)
        | some next =>
          match img next with
          | sqfs_inode.symlink target =>
            match sqfs_get_abs_path (done ++ [t]) target with
            | none => some (Except.error sqfs_search_err.einval)
            | some abs =>
              sqfs_search_dir img root fuel root [] (abs ++ rest)
          | sqfs_inode.dir es =>
            if es.isEmpty then some (Except.error sqfs_search_err.emptyDir)
            else sqfs_search_dir img root fuel next (done ++ [t]) rest
          | sqfs_inode.other => some (Except.error sqfs_search_err.einval)
      | _ => some (Except.error sqfs_search_err.einval)

/-- A one-entry image with a symlink cycle: inode 0 is the root directory
containing a -> inode 1, and inode 1 is a symlink whose target is a. -/
def imgSymlinkLoop : Nat → sqfs_inode :=
  fun n =>
    match n with
    | 0 => sqfs_inode.dir [("a", 1)]
    | _ => sqfs_inode.symlink ["a"]

/-- get_unaligned_le16: two bytes, little endian. -/
def get_le16 (m : Nat → Nat) (p : Nat) : Nat :=
  m p % 256 + m (p + 1) % 256 * 256

/-- get_unaligned_le32: four bytes, little endian. -/
def get_le32 (m : Nat → Nat) (p : Nat) : Nat :=
  m p % 256 + m (p + 1) % 256 * 256 + m (p + 2) % 256 * 65536 +
    m (p + 3) % 256 * 16777216

/-- Little-endian byte encoding of a 16-bit value. -/
def le16 (x : Nat) : List Nat := [x % 256, x / 256 % 256]

/-- Little-endian byte encoding of a 32-bit value. -/
def le32 (x : Nat) : List Nat :=
  [x % 256, x / 256 % 256, x / 65536 % 256, x / 16777216 % 256]

/-- struct squashfs_directory_entry as sqfs_readdir sees it after
sqfs_read_entry: offset, inode_offset, type, name_size, and the
name_size + 1 name bytes. -/
structure squashfs_directory_entry where
  off : Nat
  inode_offset : Nat
  etype : Nat
  name_size : Nat
  name : List Nat
deriving DecidableEq

/-- struct fs_dirent as sqfs_readdir fills it: type, size (only written for
regular entries, otherwise the previous call's value persists in
dirs->dentp), and the null-terminated name (modelled without the
terminator). -/
structure fs_dirent where
  dtype : Nat
  dsize : Nat
  name : List Nat
deriving DecidableEq

/-- struct squashfs_dir_stream, the fields sqfs_readdir touches: the
remaining byte budget (int in the C struct, hence Int: sqfs_opendir can
drive it negative), the entries left under the current header, the
cursor into the decompressed directory table, the current header's
count and inode_number, the last entry read (dirs->entry; none after
opendir), and the persistent dirent buffer dirs->dentp. -/
structure squashfs_dir_stream where
  size : Int
  entry_count : Nat
  table : Nat
  header_count : Nat
  header_inum : Nat
  entry : Option squashfs_directory_entry
  dentp : fs_dirent

/-- sqfs_read_entry (sqfs.c lines 199-220) applied at byte position p of
the decompressed directory table tbl: read name_size at p + 6 and copy
the fixed prefix plus name_size + 1 name bytes. -/
def sqfs_parse_entry (tbl : Nat → Nat) (p : Nat) : squashfs_directory_entry :=
  let ns := get_le16 tbl (p + 6)
  { off := get_le16 tbl p
  , inode_offset := get_le16 tbl (p + 2)
  , etype := get_le16 tbl (p + 4)
  , name_size := ns
  , name := (List.range (ns + 1)).map (fun i => tbl (p + 8 + i)) }

/-- The type switch of sqfs_readdir (sqfs.c lines 942-983): set the dirent
type from the directory entry's type; for regular entries look the
inode up (itype i gives get_unaligned_le16 of the base inode's type at
inode number i, is64 / is32 its extended / basic file_size — the inode
locator sqfs_find_inode lives in a file not under src/ and is modelled
abstractly per spec section 4.4) and set the size; the default case
returns -SQFS_STOP_READDIR, modelled as none.  The name is then copied
from the entry (lines 981-983). -/
def sqfs_set_dirent (itype is32 is64 : Nat → Nat) (i_number : Nat)
    (prev : fs_dirent) (e : squashfs_directory_entry) : Option fs_dirent :=
  if e.etype = SQFS_DIR_TYPE ∨ e.etype = SQFS_LDIR_TYPE then
    some { prev with dtype := FS_DT_DIR, name := e.name }
  else if e.etype = SQFS_REG_TYPE ∨ e.etype = SQFS_LREG_TYPE then
    some { dtype := FS_DT_REG
         , dsize := if itype i_number = SQFS_LREG_TYPE then is64 i_number
                    else is32 i_number
         , name := e.name }
  else if e.etype = SQFS_BLKDEV_TYPE ∨ e.etype = SQFS_CHRDEV_TYPE ∨
          e.etype = SQFS_LBLKDEV_TYPE ∨ e.etype = SQFS_LCHRDEV_TYPE ∨
          e.etype = SQFS_FIFO_TYPE ∨ e.etype = SQFS_SOCKET_TYPE ∨
          e.etype = SQFS_LFIFO_TYPE ∨ e.etype = SQFS_LSOCKET_TYPE then
    some { prev with dtype := SQFS_MISC_ENTRY_TYPE, name := e.name }
  else if e.etype = SQFS_SYMLINK_TYPE ∨ e.etype = SQFS_LSYMLINK_TYPE then
    some { prev with dtype := FS_DT_LNK, name := e.name }
  else none

/-- sqfs_readdir (sqfs.c lines 889-1000).  Returns the dirent produced (none
models -SQFS_STOP_READDIR, the end-of-stream return) and the updated
stream.  Control flow: size == 0 stops; with no entries left under the
current header, 12 header bytes are deducted (stopping and zeroing size
if fewer remain) and, if more than the 3-byte sentinel remains, the
follow-up header and its first entry are read; otherwise the next entry
is read at the cursor.  The common tail computes the inode number,
runs the type switch (whose default stops), copies the name, and
advances entry_count, size (clamped at zero) and the cursor by
name_size + 1 + SQFS_ENTRY_BASE_LENGTH. -/
def sqfs_readdir (tbl : Nat → Nat) (itype is32 is64 : Nat → Nat)
    (dirs : squashfs_dir_stream) : Option fs_dirent × squashfs_dir_stream :=
  if dirs.size = 0 then (none, dirs)
  else
    match
      (if dirs.entry_count = 0 then
        if dirs.size > (SQFS_DIR_HEADER_SIZE : Int) then
          let s1 := dirs.size - (SQFS_DIR_HEADER_SIZE : Int)
          if s1 > (SQFS_EMPTY_FILE_SIZE : Int) then
            some { dirs with
                   size := s1
                 , header_count := get_le32 tbl dirs.table
                 , header_inum := get_le32 tbl (dirs.table + 8)
                 , entry_count := get_le32 tbl dirs.table + 1
                 , entry := some (sqfs_parse_entry tbl
                              (dirs.table + SQFS_DIR_HEADER_SIZE))
                 , table := dirs.table + SQFS_DIR_HEADER_SIZE }
          else some { dirs with size := s1 }
        else none
      else some { dirs with entry := some (sqfs_parse_entry tbl dirs.table) })
    with
    | none => (none, { dirs with size := 0 })
    | some d =>
      match d.entry with
      | none => (none, d)
      | some e =>
        let i_number := d.header_inum + e.inode_offset
        match sqfs_set_dirent itype is32 is64 i_number d.dentp e with
        | none => (none, d)
        | some dent =>
          let off : Int := (e.name_size + 1 + SQFS_ENTRY_BASE_LENGTH : Nat)
          (some dent,
           { d with
             dentp := dent
           , entry_count := d.entry_count - 1
           , size := if d.size > off then d.size - off else 0
           , table := d.table + e.name_size + 1 + SQFS_ENTRY_BASE_LENGTH })

/-- The directory-stream initialization done by sqfs_opendir once
sqfs_search_dir has positioned dirs->table at the directory's header
(sqfs.c lines 862-874): size is the directory inode's file_size, the
header is copied from the table, entry_count becomes count + 1, 12
header bytes are deducted from size and the cursor advances past the
header; dirs->entry starts out NULL. -/
def sqfs_opendir_stream (tbl : Nat → Nat) (off : Nat) (file_size : Nat) :
    squashfs_dir_stream :=
  { size := (file_size : Int) - (SQFS_DIR_HEADER_SIZE : Int)
  , entry_count := get_le32 tbl off + 1
  , table := off + SQFS_DIR_HEADER_SIZE
  , header_count := get_le32 tbl off
  , header_inum := get_le32 tbl (off + 8)
  , entry := none
  , dentp := { dtype := 0, dsize := 0, name := [] } }

/-- n successive sqfs_readdir calls, collecting each call's result (none is
an end-of-stream return). -/
def readdirN (tbl itype is32 is64 : Nat → Nat) :
    Nat → squashfs_dir_stream → List (Option fs_dirent)
  | 0, _ => []
  | n + 1, s =>
    match sqfs_readdir tbl itype is32 is64 s with
    | (r, s2) => r :: readdirN tbl itype is32 is64 n s2

/-- Abstract description of one on-disk directory entry: the four fixed
fields and the name bytes (name_size is stored as length - 1). -/
structure dir_entry_rec where
  off : Nat
  inode_offset : Nat
  etype : Nat
  name : List Nat
deriving DecidableEq

/-- Abstract description of one directory header together with the run of
entries it governs. -/
structure dir_header_rec where
  start : Nat
  inode_number : Nat
  entries : List dir_entry_rec
deriving DecidableEq

/-- On-disk bytes of a directory entry. -/
def encEntry (e : dir_entry_rec) : List Nat :=
  le16 e.off ++ le16 e.inode_offset ++ le16 e.etype ++
    le16 (e.name.length - 1) ++ e.name

/-- Bytes a directory entry occupies: the 8-byte fixed part plus the name. -/
def entryLen (e : dir_entry_rec) : Nat :=
  SQFS_ENTRY_BASE_LENGTH + e.name.length

/-- On-disk bytes of a run of directory entries. -/
def encEntries (es : List dir_entry_rec) : List Nat :=
  (es.map encEntry).flatten

/-- On-disk bytes of a directory header (count is stored as the entry
count minus one) followed by its entries. -/
def encBlock (b : dir_header_rec) : List Nat :=
  le32 (b.entries.length - 1) ++ le32 b.start ++ le32 b.inode_number ++
    encEntries b.entries

/-- On-disk bytes of a whole directory: its headers and entries laid out
back to back. -/
def encBlocks (bs : List dir_header_rec) : List Nat :=
  (bs.map encBlock).flatten

/-- Total number of entries across all headers of a directory. -/
def totalEntries (bs : List dir_header_rec) : Nat :=
  (bs.map (fun b => b.entries.length)).sum

/-- The byte function tbl holds the byte list l starting at position t. -/
def sqfs_agrees (tbl : Nat → Nat) (t : Nat) (l : List Nat) : Prop :=
  ∀ i, i < l.length → tbl (t + i) = l.getD i 0

/-- Entry types the sqfs_readdir switch handles (everything except its
default case). -/
def knownEntryType (t : Nat) : Prop :=
  t = SQFS_DIR_TYPE ∨ t = SQFS_REG_TYPE ∨ t = SQFS_SYMLINK_TYPE ∨
  t = SQFS_BLKDEV_TYPE ∨ t = SQFS_CHRDEV_TYPE ∨ t = SQFS_FIFO_TYPE ∨
  t = SQFS_SOCKET_TYPE ∨ t = SQFS_LDIR_TYPE ∨ t = SQFS_LREG_TYPE ∨
  t = SQFS_LSYMLINK_TYPE ∨ t = SQFS_LBLKDEV_TYPE ∨ t = SQFS_LCHRDEV_TYPE ∨
  t = SQFS_LFIFO_TYPE ∨ t = SQFS_LSOCKET_TYPE

/-- Well-formed directory entry: a type the readdir switch handles and a
nonempty name whose length - 1 round-trips through the 16-bit
name_size field. -/
def wfEntry (e : dir_entry_rec) : Prop :=
  knownEntryType e.etype ∧ e.name ≠ [] ∧ e.name.length ≤ 65536

/-- Well-formed header: at least one entry (count is stored as entry count
minus one), a count that round-trips through 32 bits, and well-formed
entries. -/
def wfBlock (b : dir_header_rec) : Prop :=
  b.entries ≠ [] ∧ b.entries.length ≤ 4294967296 ∧ ∀ e ∈ b.entries, wfEntry e

/-- Well-formed directory description. -/
def wfBlocks (bs : List dir_header_rec) : Prop := ∀ b ∈ bs, wfBlock b

/-- The identity of a produced dirent that the claim speaks about: its name
and its surfaced type (the size field of dirs->dentp persists across
calls for non-regular entries and is not part of the claim). -/
def dirProj (d : fs_dirent) : List Nat × Nat := (d.name, d.dtype)

/-- The surfaced dirent type for a directory-entry type tag, as computed by
the sqfs_readdir switch. -/
def dirTypeOf (t : Nat) : Nat :=
  if t = SQFS_DIR_TYPE ∨ t = SQFS_LDIR_TYPE then FS_DT_DIR
  else if t = SQFS_REG_TYPE ∨ t = SQFS_LREG_TYPE then FS_DT_REG
  else if t = SQFS_SYMLINK_TYPE ∨ t = SQFS_LSYMLINK_TYPE then FS_DT_LNK
  else SQFS_MISC_ENTRY_TYPE

/-- The (name, type) projections sqfs_readdir is expected to produce for a
run of entries. -/
def expectedProjEntries (es : List dir_entry_rec) :
    List (Option (List Nat × Nat)) :=
  es.map (fun e => some (e.name, dirTypeOf e.etype))

/-- The full expected output of entry_count + 1 readdir calls: one
projection per entry, in on-disk order, then one end-of-stream. -/
def expectedProjBlocks (bs : List dir_header_rec) :
    List (Option (List Nat × Nat)) :=
  expectedProjEntries ((bs.map (fun b => b.entries)).flatten) ++ [none]

/-- A concrete block device for witnesses: 512-byte blocks, every read
delivered in full. -/
def devFull : blk_desc := { blksz := 512, dread := fun _ n => n }

/-- A concrete context with a device attached (as after a successful probe). -/
def ctxtWithDev : squashfs_ctxt :=
  { cur_dev := some devFull, cur_part_start := 0, sblk := none }

/-- A concrete context with no device attached (before probe / after close). -/
def ctxtNoDev : squashfs_ctxt :=
  { cur_dev := none, cur_part_start := 0, sblk := none }

/-- A superblock with a valid magic whose table offsets violate the spec's
ordering invariant: the inode table offset (100) is beyond the
directory table offset (50). -/
def sblkUnordered : squashfs_super_block :=
  { s_magic := SQFS_MAGIC_NUMBER, inodes := 1, block_size := 4096
  , fragments := 0, inode_table_start := 100, directory_table_start := 50
  , fragment_table_start := 200, export_table_start := 300
  , id_table_start := 400, bytes_used := 500 }

/-- A superblock with ordered table offsets and a valid magic. -/
def sblkGood : squashfs_super_block :=
  { s_magic := SQFS_MAGIC_NUMBER, inodes := 1, block_size := 4096
  , fragments := 0, inode_table_start := 96, directory_table_start := 160
  , fragment_table_start := 224, export_table_start := 288
  , id_table_start := 352, bytes_used := 416 }

/-- A superblock whose first four bytes are not the SquashFS magic. -/
def sblkBadMagic : squashfs_super_block :=
  { sblkGood with s_magic := 0 }

/-- C2 failing input: a 2-byte regular file stored in one uncompressed data
block, not fragmented. -/
def regTwoByte : squashfs_reg_inode :=
  { file_size := 2, offset := 0, start_block := 0, fragment := 4294967295 }

/-- C6 failing input: a 3-byte regular file stored in one uncompressed data
block, not fragmented. -/
def regThreeByte : squashfs_reg_inode :=
  { file_size := 3, offset := 0, start_block := 0, fragment := 4294967295 }

/-- C3 failing input: a file of length block_size + 3 (block_size = 8) with
one uncompressed data block and a 3-byte fragment tail at in-fragment
offset 5, using fragment index 0. -/
def regFragTail : squashfs_reg_inode :=
  { file_size := 11, offset := 5, start_block := 0, fragment := 0 }

/-- Fragment entry for regFragTail: a compressed fragment block of 16
on-disk bytes at byte position 32 (bit 24 of size clear = compressed). -/
def fentryTail : squashfs_fragment_block_entry := { start := 32, size := 16 }

/-- C5 failing input: a regular file of exactly one block (block_size = 8)
whose only size word is zero — a hole block — starting at byte 1 so the
covering device read is one block. -/
def regHole : squashfs_reg_inode :=
  { file_size := 8, offset := 0, start_block := 1, fragment := 4294967295 }

/-- C9 witness input: a fragmented 5-byte file at in-fragment offset 1. -/
def regFragWitness : squashfs_reg_inode :=
  { file_size := 5, offset := 1, start_block := 0, fragment := 3 }

/-- C9 witness input: the extended-inode variant of regFragWitness. -/
def lregFragWitness : squashfs_lreg_inode :=
  { file_size := 5, offset := 1, start_block := 0, fragment := 3 }

/-- Fragment entry whose size word has bit 24 set: the fragment block is
flagged uncompressed on disk. -/
def fentryUncompFlag : squashfs_fragment_block_entry :=
  { start := 0, size := 16777220 }

/-- Fragment lookup table for the C9 witnesses: every index resolves to the
uncompressed-flagged entry. -/
def flUncomp : Nat → Option squashfs_fragment_block_entry :=
  fun _ => some fentryUncompFlag

/-- The decoded file info the C9 witness expects: comp is true although the
fragment entry is flagged uncompressed. -/
def finfoFragWitness : squashfs_file_info :=
  { size := 5, offset := 1, start := 0, frag := true, comp := true }

/-- A device image whose byte at position i is 50 + i (distinguishable
content for the C2 counterexample evaluation). -/
def disk50 : Nat → Nat := fun i => 50 + i

/-- A device image whose byte at position i is 100 + i (distinguishable
content for the C3 evaluation: fragment block source bytes live at
positions 32..47). -/
def disk100 : Nat → Nat := fun i => 100 + i

/-- A decompressor model that emits the source bytes truncated to the
destination capacity (enough to observe which source bytes the code
feeds it and which indices of its output the code reads). -/
def decompCopy : Nat → List Nat → Option (List Nat) :=
  fun cap src => some (src.take cap)

/-- A decompressor model that rejects an empty source, as a zlib-style
collaborator does (used for the hole-block evaluation: the code hands
it a zero-length source). -/
def decompRejectEmpty : Nat → List Nat → Option (List Nat) :=
  fun cap src => if src.isEmpty then none else some (src.take cap)

/-- Fragment lookup for the C3 evaluation: index 0 resolves to fentryTail. -/
def flTail : Nat → Option squashfs_fragment_block_entry :=
  fun k => if k = 0 then some fentryTail else none

/-- Fragment lookup that always fails (unused in non-fragmented runs). -/
def flNone : Nat → Option squashfs_fragment_block_entry := fun _ => none

/-- The directory-table byte image for the C7 counterexample: what follows
an empty directory's table position happens to look like a header with
count = 0 (at offset 0: count, start, inode_number) and one
directory-typed entry named "x" (byte 120).  An empty directory
occupies no entry bytes, so these are simply whatever bytes sit there. -/
def emptyDirTblBytes : List Nat :=
  le32 0 ++ le32 0 ++ le32 7 ++
    encEntry { off := 0, inode_offset := 1, etype := SQFS_DIR_TYPE
             , name := [120] }

/-- The byte function over emptyDirTblBytes (zero past the end). -/
def emptyDirTbl : Nat → Nat := fun i => emptyDirTblBytes.getD i 0

/-- Inode-locator stub for concrete readdir evaluations (the looked-up
values only feed dirent sizes, which the claims do not mention). -/
def inodeZero : Nat → Nat := fun _ => 0

/-- The directory description for the C7 witness: one header (base inode 7)
with two entries, a subdirectory named "ab" and a regular file
named "c". -/
def witnessDirBlocks : List dir_header_rec :=
  [ { start := 0, inode_number := 7
    , entries :=
        [ { off := 0, inode_offset := 1, etype := SQFS_DIR_TYPE
          , name := [97, 98] }
        , { off := 24, inode_offset := 2, etype := SQFS_REG_TYPE
          , name := [99] } ] } ]

/-- The byte function holding the encoded witness directory at position 0. -/
def witnessDirTbl : Nat → Nat := fun i => (encBlocks witnessDirBlocks).getD i 0

/-- The dirent size field as the sqfs_readdir type switch leaves it: for a
regular entry it is looked up from the inode, otherwise the previous
call's value persists in dirs->dentp. -/
def sqfs_dirent_size_upd (itype is32 is64 : Nat → Nat) (i_number : Nat)
    (prev : fs_dirent) (e : squashfs_directory_entry) : Nat :=
  if e.etype = SQFS_REG_TYPE ∨ e.etype = SQFS_LREG_TYPE then
    (if itype i_number = SQFS_LREG_TYPE then is64 i_number else is32 i_number)
  else prev.dsize

/-- The dirent sqfs_readdir produces for a parsed entry whose type the
switch handles. -/
def readdirDent (itype is32 is64 : Nat → Nat) (hinum : Nat)
    (prev : fs_dirent) (e : squashfs_directory_entry) : fs_dirent :=
  { dtype := dirTypeOf e.etype
  , dsize := sqfs_dirent_size_upd itype is32 is64 (hinum + e.inode_offset) prev e
  , name := e.name }

theorem regfile_info_comp_of_frag (reg : squashfs_reg_inode) (blksz : Nat)
    (fl : Nat → Option squashfs_fragment_block_entry)
    (finfo : squashfs_file_info) (cnt : Nat)
    (fe : Option squashfs_fragment_block_entry)
    (h : sqfs_get_regfile_info reg blksz fl = some (finfo, cnt, fe)) :
    (finfo.frag = true → finfo.comp = true) ∧
      (finfo.frag && !finfo.comp) = false := by
  unfold sqfs_get_regfile_info at h
  dsimp only at h
  split_ifs at h with h1 h2 h3
  · cases hfe : fl reg.fragment with
    | none => rw [hfe] at h; simp at h
    | some fentry =>
      rw [hfe] at h
      dsimp only at h
      split_ifs at h with h4
      obtain ⟨rfl, rfl, rfl⟩ := by
        simpa using h
      simp
  · obtain ⟨rfl, rfl, rfl⟩ := by
      simpa using h
    have : SQFS_IS_FRAGMENTED reg.fragment = false := by
      simpa using h3
    simp [this]

theorem lregfile_info_comp_of_frag (lreg : squashfs_lreg_inode) (blksz : Nat)
    (fl : Nat → Option squashfs_fragment_block_entry)
    (finfo : squashfs_file_info) (cnt : Nat)
    (fe : Option squashfs_fragment_block_entry)
    (h : sqfs_get_lregfile_info lreg blksz fl = some (finfo, cnt, fe)) :
    (finfo.frag = true → finfo.comp = true) ∧
      (finfo.frag && !finfo.comp) = false := by
  unfold sqfs_get_lregfile_info at h
  dsimp only at h
  split_ifs at h with h1 h2 h3
  · cases hfe : fl lreg.fragment with
    | none => rw [hfe] at h; simp at h
    | some fentry =>
      rw [hfe] at h
      dsimp only at h
      split_ifs at h with h4
      obtain ⟨rfl, rfl, rfl⟩ := by
        simpa using h
      simp
  · obtain ⟨rfl, rfl, rfl⟩ := by
      simpa using h
    have : SQFS_IS_FRAGMENTED lreg.fragment = false := by
      simpa using h3
    simp [this]

/-- Claim C9: for every fragmented regular or extended-regular file, the
file-info decoders unconditionally mark the fragment as compressed
(finfo.comp is true regardless of the fragment entry's compressed
flag), so the guard of sqfs_read's uncompressed-fragment branch,
finfo.frag && !finfo.comp, is false for every decoder-produced info. -/
theorem sqfs_file_info_fragment_always_compressed :
    (∀ (reg : squashfs_reg_inode) (blksz : Nat)
       (fl : Nat → Option squashfs_fragment_block_entry)
       (finfo : squashfs_file_info) (cnt : Nat)
       (fe : Option squashfs_fragment_block_entry),
       sqfs_get_regfile_info reg blksz fl = some (finfo, cnt, fe) →
       (finfo.frag = true → finfo.comp = true) ∧
         (finfo.frag && !finfo.comp) = false) ∧
    (∀ (lreg : squashfs_lreg_inode) (blksz : Nat)
       (fl : Nat → Option squashfs_fragment_block_entry)
       (finfo : squashfs_file_info) (cnt : Nat)
       (fe : Option squashfs_fragment_block_entry),
       sqfs_get_lregfile_info lreg blksz fl = some (finfo, cnt, fe) →
       (finfo.frag = true → finfo.comp = true) ∧
         (finfo.frag && !finfo.comp) = false) :=
  ⟨fun reg blksz fl finfo cnt fe h =>
     regfile_info_comp_of_frag reg blksz fl finfo cnt fe h,
   fun lreg blksz fl finfo cnt fe h =>
     lregfile_info_comp_of_frag lreg blksz fl finfo cnt fe h⟩

/-- Witness for C9: a concrete fragmented file whose fragment entry is
flagged uncompressed on disk (bit 24 of its size word set) still
decodes with comp = true. -/
theorem sqfs_file_info_fragment_always_compressed_witness :
    SQFS_COMPRESSED_BLOCK fentryUncompFlag.size = false ∧
    sqfs_get_regfile_info regFragWitness 8 flUncomp =
      some (finfoFragWitness, 0, some fentryUncompFlag) ∧
    finfoFragWitness.comp = true ∧
    (finfoFragWitness.frag && !finfoFragWitness.comp) = false := by
  refine ⟨by decide, by decide, ?_, ?_⟩
  · exact (sqfs_file_info_fragment_always_compressed.1 regFragWitness 8
      flUncomp finfoFragWitness 0 (some fentryUncompFlag) (by decide)).1
      (by decide)
  · exact (sqfs_file_info_fragment_always_compressed.1 regFragWitness 8
      flUncomp finfoFragWitness 0 (some fentryUncompFlag) (by decide)).2

/-- Claim C1 (amended): sqfs_probe succeeds exactly when the superblock
device read succeeds, the first four bytes equal the SquashFS magic
0x73717368, and the decompressor initializes; the five table offsets
are never examined. -/
theorem sqfs_probe_success_iff (dev : blk_desc) (ps : Nat) (read_ok : Bool)
    (sb : squashfs_super_block) (init_ok : Bool) :
    (sqfs_probe dev ps read_ok sb init_ok).ret = 0 ↔
      read_ok = true ∧ sb.s_magic = SQFS_MAGIC_NUMBER ∧ init_ok = true := by
  cases read_ok <;> cases init_ok <;>
    by_cases h : sb.s_magic = SQFS_MAGIC_NUMBER <;>
      simp [sqfs_probe, h]

/-- Witness for C1's amended theorem: a superblock with the right magic, a
successful read and a successful decompressor init makes probe
return 0. -/
theorem sqfs_probe_success_iff_witness :
    (sqfs_probe devFull 0 true sblkGood true).ret = 0 :=
  (sqfs_probe_success_iff devFull 0 true sblkGood true).mpr
    ⟨rfl, rfl, rfl⟩

/-- Counterexample to C1 as stated: an image whose superblock has a valid
magic but table offsets violating the ordering invariant
(inode_table_start = 100 > directory_table_start = 50) is accepted by
sqfs_probe, although the claim requires probe to return an error for
every image violating the ordering. -/
theorem sqfs_probe_accepts_unordered_offsets :
    (sqfs_probe devFull 0 true sblkUnordered true).ret = 0 ∧
      ¬ spec_table_offsets_ordered sblkUnordered := by
  constructor
  · rfl
  · intro hordered
    have : (100 : Nat) < 50 := hordered.1
    omega

/-- Claim C8 (code bug): on the bad-magic failure path sqfs_probe clears
cur_dev (reverting to the unmounted state) but returns without freeing
the superblock buffer allocated by sqfs_read_sblk — the allocation is
still live — whereas on the decompressor-init failure path the buffer
is freed. -/
theorem sqfs_probe_bad_magic_leaks_superblock :
    (sqfs_probe devFull 0 true sblkBadMagic true).ret = -22 ∧
    (sqfs_probe devFull 0 true sblkBadMagic true).ctxt.cur_dev = none ∧
    (sqfs_probe devFull 0 true sblkBadMagic true).sblk_alloc_live = true ∧
    (sqfs_probe devFull 0 true sblkGood false).sblk_alloc_live = false :=
  ⟨rfl, rfl, rfl, rfl⟩

/-- Claim C10: sqfs_disk_read returns -1 with no device access when no
device is set in the reader context; with a device set (and the device
delivering at most the requested count), it returns -1 exactly when
the device delivers fewer blocks than requested, and on a full read it
returns the block count, having issued exactly one device read at
cur_part_info.start + block. -/
theorem sqfs_disk_read_spec (c : squashfs_ctxt) (block nr : Nat) :
    (c.cur_dev = none → sqfs_disk_read c block nr = (-1, [])) ∧
    (∀ dev, c.cur_dev = some dev →
      dev.dread (c.cur_part_start + block) nr ≤ nr →
      (((sqfs_disk_read c block nr).1 = -1 ↔
          dev.dread (c.cur_part_start + block) nr < nr) ∧
       (dev.dread (c.cur_part_start + block) nr = nr →
          sqfs_disk_read c block nr =
            ((nr : Int), [(c.cur_part_start + block, nr)])))) := by
  constructor
  · intro h
    simp [sqfs_disk_read, h]
  · intro dev h hle
    have hval : sqfs_disk_read c block nr =
        ((if dev.dread (c.cur_part_start + block) nr ≠ nr then (-1 : Int)
          else (dev.dread (c.cur_part_start + block) nr : Int)),
         [(c.cur_part_start + block, nr)]) := by
      simp only [sqfs_disk_read, h]
    have hval1 : (sqfs_disk_read c block nr).1 =
        (if dev.dread (c.cur_part_start + block) nr ≠ nr then (-1 : Int)
         else (dev.dread (c.cur_part_start + block) nr : Int)) := by
      rw [hval]
    constructor
    · rw [hval1]
      split_ifs with hd
      · constructor
        · intro _
          omega
        · intro _
          rfl
      · rw [not_not] at hd
        constructor
        · intro hbad
          exact hbad.elim
        · intro hlt
          omega
    · intro heq
      rw [hval, heq]
      simp

/-- Witness for C10: with a device attached and a full read delivered,
sqfs_disk_read returns the block count and logs the single device
read. -/
theorem sqfs_disk_read_spec_witness :
    sqfs_disk_read ctxtWithDev 2 3 = (3, [(2, 3)]) :=
  ((sqfs_disk_read_spec ctxtWithDev 2 3).2 devFull rfl (by decide)).2 rfl

/-- Claim C2 (code bug), evaluated at the failing input: a 2-byte regular
file in one uncompressed block (device bytes 50, 51), read with file
offset 1 and length 1.  The claim requires min(len, file_size - offset)
= 1 byte of content starting at buf[0]; the code instead copies the
whole 2-byte block to buf + offset + actread (leaving buf[0] untouched
and filling buf[1], buf[2]) and returns actread = 2. -/
theorem sqfs_read_ignores_file_offset :
    ((sqfs_read_inode 8 disk50 decompCopy flNone 8 regTwoByte
        [16777218] 1 1).2.map (fun p => p.2) = some 2) ∧
    ((sqfs_read_inode 8 disk50 decompCopy flNone 8 regTwoByte
        [16777218] 1 1).2.map (fun p => p.1 0) = some none) ∧
    ((sqfs_read_inode 8 disk50 decompCopy flNone 8 regTwoByte
        [16777218] 1 1).2.map (fun p => p.1 1) = some (some 50)) ∧
    ((sqfs_read_inode 8 disk50 decompCopy flNone 8 regTwoByte
        [16777218] 1 1).2.map (fun p => p.1 2) = some (some 51)) ∧
    min 1 (regTwoByte.file_size - 1) = 1 ∧ (2 : Nat) ≠ 1 := by
  refine ⟨by decide, by decide, by decide, by decide, by decide, by decide⟩

/-- Claim C3 (code bug), evaluated at the spec's own scenario with
block_size = 8: an 11-byte file (block_size + 3) with one uncompressed
data block and a 3-byte fragment tail at in-fragment offset 5.  The
decompressed fragment block is bytes 132..139 (so the claimed tail is
its bytes [5..8) = 137, 138, 139), but the code indexes the fragment
block at finfo.offset + j with j the absolute file position, i.e. at
13, 14, 15 — past the end of the decompressed block (a heap overread,
modelled as 0) — so the produced tail is 0, 0, 0. -/
theorem sqfs_read_fragment_tail_wrong_bytes :
    ((sqfs_read_inode 8 disk100 decompCopy flTail 8 regFragTail
        [16777224] 0 0).2.map (fun p => p.2) = some 11) ∧
    (decompCopy 8 (diskBytes disk100 fentryTail.start fentryTail.size) =
      some [132, 133, 134, 135, 136, 137, 138, 139]) ∧
    ((sqfs_read_inode 8 disk100 decompCopy flTail 8 regFragTail
        [16777224] 0 0).2.map (fun p => p.1 8) = some (some 0)) ∧
    ((sqfs_read_inode 8 disk100 decompCopy flTail 8 regFragTail
        [16777224] 0 0).2.map (fun p => p.1 9) = some (some 0)) ∧
    ((sqfs_read_inode 8 disk100 decompCopy flTail 8 regFragTail
        [16777224] 0 0).2.map (fun p => p.1 10) = some (some 0)) ∧
    [132, 133, 134, 135, 136, 137, 138, 139].getD 5 0 = 137 ∧
    (0 : Nat) ≠ 137 := by
  refine ⟨by decide, by decide, by decide, by decide, by decide, by decide,
    by decide⟩

/-- Claim C5 (code bug), evaluated at the failing input: a one-block file
whose only size word is zero (a hole) starting at byte 1.  The claim
requires block_size zero bytes with no device read; the code instead
logs a device read of one block for the hole (n_blks computed from the
in-block offset), classifies the zero word as a compressed block (bit
24 clear), hands the decompressor a zero-length source and fails. -/
theorem sqfs_read_hole_block_not_zero_filled :
    (sqfs_read_inode 8 disk50 decompRejectEmpty flNone 8 regHole
        [0] 0 0).1 = [(0, 1)] ∧
    (sqfs_read_inode 8 disk50 decompRejectEmpty flNone 8 regHole
        [0] 0 0).2.isNone = true ∧
    SQFS_COMPRESSED_BLOCK 0 = true ∧ SQFS_BLOCK_SIZE 0 = 0 := by
  refine ⟨by decide, by decide, by decide, by decide⟩

/-- Claim C6 (code bug), evaluated at one input per case: for a 3-byte
one-block file, len = 0 reads the whole file (actread 3) and
len = 4 > file_size fails, matching the claim; but len = 2 still
produces actread = 3 — the data-block loop copies every block of the
file, ignoring the len-truncated size — where the claim requires
exactly len = 2 bytes. -/
theorem sqfs_read_len_zero_whole_len_capped :
    ((sqfs_read_inode 8 disk50 decompCopy flNone 8 regThreeByte
        [16777219] 0 0).2.map (fun p => p.2) = some 3) ∧
    ((sqfs_read_inode 8 disk50 decompCopy flNone 8 regThreeByte
        [16777219] 0 4).2.isNone = true) ∧
    ((sqfs_read_inode 8 disk50 decompCopy flNone 8 regThreeByte
        [16777219] 0 2).2.map (fun p => p.2) = some 3) ∧
    (3 : Nat) ≠ 2 := by
  refine ⟨by decide, by decide, by decide, by decide⟩

/-- Claim C4 (code bug): on an image whose root directory contains the
entry a pointing at a symlink with target a (a symlink cycle),
resolution of the path /a never completes: for every recursion budget
sqfs_search_dir is still recursing — the C code, which recurses with no
depth counter at all, never returns and never produces a Loop error. -/
theorem sqfs_search_dir_symlink_cycle_diverges :
    ∀ fuel, sqfs_search_dir imgSymlinkLoop 0 fuel 0 [] ["a"] = none := by
  intro fuel
  induction fuel with
  | zero => rfl
  | succ n ih =>
    rw [show sqfs_search_dir imgSymlinkLoop 0 (n + 1) 0 [] ["a"] =
          sqfs_search_dir imgSymlinkLoop 0 n 0 [] ["a"] from rfl]
    exact ih

theorem le16_length (x : Nat) : (le16 x).length = 2 := rfl

theorem le32_length (x : Nat) : (le32 x).length = 4 := rfl

theorem encEntry_length (e : dir_entry_rec) :
    (encEntry e).length = entryLen e := by
  simp [encEntry, entryLen, le16, SQFS_ENTRY_BASE_LENGTH]
  omega

theorem encEntries_nil : encEntries [] = [] := rfl

theorem encEntries_cons (e : dir_entry_rec) (es : List dir_entry_rec) :
    encEntries (e :: es) = encEntry e ++ encEntries es := by
  simp [encEntries]

theorem encBlocks_nil : encBlocks [] = [] := rfl

theorem encBlocks_cons (b : dir_header_rec) (bs : List dir_header_rec) :
    encBlocks (b :: bs) = encBlock b ++ encBlocks bs := by
  simp [encBlocks]

theorem encBlock_length (b : dir_header_rec) :
    (encBlock b).length = SQFS_DIR_HEADER_SIZE + (encEntries b.entries).length := by
  simp [encBlock, le32, SQFS_DIR_HEADER_SIZE]
  omega

theorem totalEntries_nil : totalEntries [] = 0 := rfl

theorem totalEntries_cons (b : dir_header_rec) (bs : List dir_header_rec) :
    totalEntries (b :: bs) = b.entries.length + totalEntries bs := by
  simp [totalEntries]

theorem sqfs_agrees_left (tbl : Nat → Nat) (t : Nat) (a b : List Nat)
    (h : sqfs_agrees tbl t (a ++ b)) : sqfs_agrees tbl t a := by
  intro i hi
  have hlen : i < (a ++ b).length := by
    simp only [List.length_append]
    omega
  have := h i hlen
  rwa [List.getD_append _ _ _ _ hi] at this

theorem sqfs_agrees_right (tbl : Nat → Nat) (t : Nat) (a b : List Nat)
    (h : sqfs_agrees tbl t (a ++ b)) :
    sqfs_agrees tbl (t + a.length) b := by
  intro i hi
  have hlen : a.length + i < (a ++ b).length := by
    simp only [List.length_append]
    omega
  have h2 := h (a.length + i) hlen
  rw [List.getD_append_right _ _ _ _ (by omega)] at h2
  rw [← Nat.add_assoc] at h2
  simpa using h2

theorem get_le16_of_agrees (tbl : Nat → Nat) (t x : Nat) (r : List Nat)
    (hx : x < 65536) (h : sqfs_agrees tbl t (le16 x ++ r)) :
    get_le16 tbl t = x := by
  have h0 := h 0 (by simp [le16])
  have h1 := h 1 (by simp [le16])
  rw [Nat.add_zero] at h0
  rw [show (le16 x ++ r).getD 0 0 = x % 256 from rfl] at h0
  rw [show (le16 x ++ r).getD 1 0 = x / 256 % 256 from rfl] at h1
  rw [get_le16, h0, h1]
  omega

theorem get_le32_of_agrees (tbl : Nat → Nat) (t x : Nat) (r : List Nat)
    (hx : x < 4294967296) (h : sqfs_agrees tbl t (le32 x ++ r)) :
    get_le32 tbl t = x := by
  have h0 := h 0 (by simp [le32])
  have h1 := h 1 (by simp [le32])
  have h2 := h 2 (by simp [le32])
  have h3 := h 3 (by simp [le32])
  rw [Nat.add_zero] at h0
  rw [show (le32 x ++ r).getD 0 0 = x % 256 from rfl] at h0
  rw [show (le32 x ++ r).getD 1 0 = x / 256 % 256 from rfl] at h1
  rw [show (le32 x ++ r).getD 2 0 = x / 65536 % 256 from rfl] at h2
  rw [show (le32 x ++ r).getD 3 0 = x / 16777216 % 256 from rfl] at h3
  rw [get_le32, h0, h1, h2, h3]
  omega

theorem knownEntryType_lt (t : Nat) (hk : knownEntryType t) : t < 65536 := by
  rcases hk with h|h|h|h|h|h|h|h|h|h|h|h|h|h <;> rw [h] <;> decide

theorem parse_entry_of_agrees (tbl : Nat → Nat) (t : Nat) (e : dir_entry_rec)
    (r : List Nat) (hwf : wfEntry e)
    (h : sqfs_agrees tbl t (encEntry e ++ r)) :
    (sqfs_parse_entry tbl t).etype = e.etype ∧
    (sqfs_parse_entry tbl t).name_size = e.name.length - 1 ∧
    (sqfs_parse_entry tbl t).name = e.name := by
  obtain ⟨hk, hne, hlen⟩ := hwf
  have hlen1 : 1 ≤ e.name.length := List.length_pos.mpr hne
  have hassoc : sqfs_agrees tbl t
      (le16 e.off ++ (le16 e.inode_offset ++ (le16 e.etype ++
        (le16 (e.name.length - 1) ++ (e.name ++ r))))) := by
    simpa [encEntry, List.append_assoc] using h
  have h2 := sqfs_agrees_right tbl t _ _ hassoc
  rw [le16_length] at h2
  have h4 := sqfs_agrees_right tbl (t + 2) _ _ h2
  rw [le16_length, show t + 2 + 2 = t + 4 from by omega] at h4
  have h6 := sqfs_agrees_right tbl (t + 4) _ _ h4
  rw [le16_length, show t + 4 + 2 = t + 6 from by omega] at h6
  have h8 := sqfs_agrees_right tbl (t + 6) _ _ h6
  rw [le16_length, show t + 6 + 2 = t + 8 from by omega] at h8
  have hety : get_le16 tbl (t + 4) = e.etype :=
    get_le16_of_agrees tbl (t + 4) e.etype _ (knownEntryType_lt _ hk) h4
  have hns : get_le16 tbl (t + 6) = e.name.length - 1 :=
    get_le16_of_agrees tbl (t + 6) (e.name.length - 1) _ (by omega) h6
  refine ⟨hety, hns, ?_⟩
  show (List.range (get_le16 tbl (t + 6) + 1)).map (fun i => tbl (t + 8 + i))
      = e.name
  rw [hns, show e.name.length - 1 + 1 = e.name.length from by omega]
  apply List.ext_getElem
  · simp
  · intro i h1 h2
    simp only [List.getElem_map, List.getElem_range]
    have hia : i < (e.name ++ r).length := by
      simp only [List.length_append]
      simp only [List.length_map, List.length_range] at h1
      omega
    have hv := h8 i hia
    rw [List.getD_append _ _ _ _ (by simpa using h2)] at hv
    rw [show t + 8 + i = t + 8 + i from rfl, hv,
      List.getD_eq_getElem _ _ h2]

theorem set_dirent_of_known (itype is32 is64 : Nat → Nat) (i : Nat)
    (prev : fs_dirent) (e : squashfs_directory_entry)
    (hk : knownEntryType e.etype) :
    sqfs_set_dirent itype is32 is64 i prev e =
      some { dtype := dirTypeOf e.etype
           , dsize := sqfs_dirent_size_upd itype is32 is64 i prev e
           , name := e.name } := by
  rcases hk with h|h|h|h|h|h|h|h|h|h|h|h|h|h <;>
    simp [sqfs_set_dirent, dirTypeOf, sqfs_dirent_size_upd, h,
      SQFS_DIR_TYPE, SQFS_REG_TYPE, SQFS_SYMLINK_TYPE, SQFS_BLKDEV_TYPE,
      SQFS_CHRDEV_TYPE, SQFS_FIFO_TYPE, SQFS_SOCKET_TYPE, SQFS_LDIR_TYPE,
      SQFS_LREG_TYPE, SQFS_LSYMLINK_TYPE, SQFS_LBLKDEV_TYPE,
      SQFS_LCHRDEV_TYPE, SQFS_LFIFO_TYPE, SQFS_LSOCKET_TYPE]

theorem readdirN_succ (tbl itype is32 is64 : Nat → Nat) (n : Nat)
    (s : squashfs_dir_stream) :
    readdirN tbl itype is32 is64 (n + 1) s =
      (sqfs_readdir tbl itype is32 is64 s).1 ::
        readdirN tbl itype is32 is64 n (sqfs_readdir tbl itype is32 is64 s).2 :=
  rfl

theorem entryLen_ge_nine (e : dir_entry_rec) (hne : e.name ≠ []) :
    9 ≤ entryLen e := by
  have : 1 ≤ e.name.length := List.length_pos.mpr hne
  simp only [entryLen, SQFS_ENTRY_BASE_LENGTH]
  omega

theorem sqfs_readdir_entry_step (tbl itype is32 is64 : Nat → Nat)
    (s : squashfs_dir_stream) (e : dir_entry_rec) (r : List Nat)
    (c : Int) (n : Nat)
    (hwf : wfEntry e)
    (hsz : s.size = (entryLen e : Int) + c) (hc : 1 ≤ c)
    (hcnt : s.entry_count = n + 1)
    (hag : sqfs_agrees tbl s.table (encEntry e ++ r)) :
    (sqfs_readdir tbl itype is32 is64 s).1 =
        some (readdirDent itype is32 is64 s.header_inum s.dentp
          (sqfs_parse_entry tbl s.table)) ∧
    (sqfs_readdir tbl itype is32 is64 s).2.size = c ∧
    (sqfs_readdir tbl itype is32 is64 s).2.entry_count = n ∧
    (sqfs_readdir tbl itype is32 is64 s).2.table = s.table + entryLen e ∧
    (readdirDent itype is32 is64 s.header_inum s.dentp
        (sqfs_parse_entry tbl s.table)).name = e.name ∧
    (readdirDent itype is32 is64 s.header_inum s.dentp
        (sqfs_parse_entry tbl s.table)).dtype = dirTypeOf e.etype := by
  obtain ⟨hety, hns, hnm⟩ := parse_entry_of_agrees tbl s.table e r hwf hag
  obtain ⟨hk, hne, hlen⟩ := hwf
  have hlen1 : 1 ≤ e.name.length := List.length_pos.mpr hne
  have h9 : 9 ≤ entryLen e := entryLen_ge_nine e hne
  have h9' : (9 : Int) ≤ (entryLen e : Int) := by exact_mod_cast h9
  have hsz0 : ¬(s.size = 0) := by omega
  have hoffn : (sqfs_parse_entry tbl s.table).name_size + 1 +
      SQFS_ENTRY_BASE_LENGTH = entryLen e := by
    rw [hns]
    simp only [entryLen, SQFS_ENTRY_BASE_LENGTH]
    omega
  have hP := set_dirent_of_known itype is32 is64
    (s.header_inum + (sqfs_parse_entry tbl s.table).inode_offset) s.dentp
    (sqfs_parse_entry tbl s.table) (by rw [hety]; exact hk)
  have hred : sqfs_readdir tbl itype is32 is64 s =
      (some (readdirDent itype is32 is64 s.header_inum s.dentp
          (sqfs_parse_entry tbl s.table)),
       { s with
         entry := some (sqfs_parse_entry tbl s.table)
       , dentp := readdirDent itype is32 is64 s.header_inum s.dentp
          (sqfs_parse_entry tbl s.table)
       , entry_count := s.entry_count - 1
       , size := if s.size > ((sqfs_parse_entry tbl s.table).name_size + 1 +
                    SQFS_ENTRY_BASE_LENGTH : Nat)
                 then s.size - ((sqfs_parse_entry tbl s.table).name_size + 1 +
                    SQFS_ENTRY_BASE_LENGTH : Nat) else 0
       , table := s.table + (sqfs_parse_entry tbl s.table).name_size + 1 +
                    SQFS_ENTRY_BASE_LENGTH }) := by
    unfold sqfs_readdir
    rw [if_neg hsz0, if_neg (by rw [hcnt]; exact Nat.succ_ne_zero n)]
    dsimp only
    rw [hP]
    rfl
  have hE : entryLen e = 8 + e.name.length := by
    simp [entryLen, SQFS_ENTRY_BASE_LENGTH]
  have h8 : SQFS_ENTRY_BASE_LENGTH = 8 := rfl
  rw [hred]
  dsimp only
  refine ⟨rfl, ?_, ?_, ?_, ?_, ?_⟩
  · rw [hoffn]
    rw [if_pos (by omega)]
    omega
  · omega
  · rw [h8]
    omega
  · show (sqfs_parse_entry tbl s.table).name = e.name
    exact hnm
  · show dirTypeOf (sqfs_parse_entry tbl s.table).etype = dirTypeOf e.etype
    rw [hety]

theorem sqfs_readdir_end_step (tbl itype is32 is64 : Nat → Nat)
    (s : squashfs_dir_stream)
    (hsz : s.size = 3) (hcnt : s.entry_count = 0) :
    sqfs_readdir tbl itype is32 is64 s = (none, { s with size := 0 }) := by
  unfold sqfs_readdir
  rw [if_neg (by omega), hcnt, if_pos rfl,
    if_neg (by rw [hsz]; decide)]

theorem sqfs_readdir_header_step (tbl itype is32 is64 : Nat → Nat)
    (s : squashfs_dir_stream) (b : dir_header_rec) (e : dir_entry_rec)
    (es' : List dir_entry_rec) (r : List Nat) (c : Int)
    (hb : b.entries = e :: es')
    (hwfb : wfBlock b)
    (hsz : s.size = (SQFS_DIR_HEADER_SIZE : Int) +
      ((encEntries b.entries).length : Int) + c)
    (hc : 3 ≤ c)
    (hcnt : s.entry_count = 0)
    (hag : sqfs_agrees tbl s.table (encBlock b ++ r)) :
    (sqfs_readdir tbl itype is32 is64 s).1 =
        some (readdirDent itype is32 is64 (get_le32 tbl (s.table + 8)) s.dentp
          (sqfs_parse_entry tbl (s.table + SQFS_DIR_HEADER_SIZE))) ∧
    (sqfs_readdir tbl itype is32 is64 s).2.size =
        ((encEntries es').length : Int) + c ∧
    (sqfs_readdir tbl itype is32 is64 s).2.entry_count = es'.length ∧
    (sqfs_readdir tbl itype is32 is64 s).2.table =
        s.table + SQFS_DIR_HEADER_SIZE + entryLen e ∧
    (readdirDent itype is32 is64 (get_le32 tbl (s.table + 8)) s.dentp
        (sqfs_parse_entry tbl (s.table + SQFS_DIR_HEADER_SIZE))).name = e.name ∧
    (readdirDent itype is32 is64 (get_le32 tbl (s.table + 8)) s.dentp
        (sqfs_parse_entry tbl (s.table + SQFS_DIR_HEADER_SIZE))).dtype =
      dirTypeOf e.etype := by
  obtain ⟨hbne, hblen32, hwfes⟩ := hwfb
  have hwfe : wfEntry e := hwfes e (by rw [hb]; exact List.mem_cons_self e es')
  have hblen : b.entries.length = es'.length + 1 := by rw [hb]; simp
  have hassoc : sqfs_agrees tbl s.table
      (le32 (b.entries.length - 1) ++ (le32 b.start ++ (le32 b.inode_number ++
        (encEntries b.entries ++ r)))) := by
    simpa [encBlock, List.append_assoc] using hag
  have hcount : get_le32 tbl s.table = b.entries.length - 1 :=
    get_le32_of_agrees tbl s.table _ _ (by omega) hassoc
  have h4 := sqfs_agrees_right tbl s.table _ _ hassoc
  rw [le32_length] at h4
  have h8a := sqfs_agrees_right tbl (s.table + 4) _ _ h4
  rw [le32_length, show s.table + 4 + 4 = s.table + 8 from by omega] at h8a
  have h12 := sqfs_agrees_right tbl (s.table + 8) _ _ h8a
  rw [le32_length, show s.table + 8 + 4 = s.table + 12 from by omega] at h12
  have h12' : sqfs_agrees tbl (s.table + 12)
      (encEntry e ++ (encEntries es' ++ r)) := by
    rw [hb, encEntries_cons, List.append_assoc] at h12
    exact h12
  have h12d : s.table + SQFS_DIR_HEADER_SIZE = s.table + 12 := rfl
  obtain ⟨hety, hns, hnm⟩ :=
    parse_entry_of_agrees tbl (s.table + 12) e _ hwfe h12'
  obtain ⟨hk, hne, hlen⟩ := hwfe
  have hlen1 : 1 ≤ e.name.length := List.length_pos.mpr hne
  have h9 : 9 ≤ entryLen e := entryLen_ge_nine e hne
  have heb : (encEntries b.entries).length =
      entryLen e + (encEntries es').length := by
    rw [hb, encEntries_cons]
    simp [encEntry_length]
  have h12v : ((SQFS_DIR_HEADER_SIZE : Nat) : Int) = 12 := rfl
  have h3v : ((SQFS_EMPTY_FILE_SIZE : Nat) : Int) = 3 := rfl
  have hsz0 : ¬(s.size = 0) := by
    rw [hsz, h12v]
    omega
  have hoffn : (sqfs_parse_entry tbl (s.table + 12)).name_size + 1 +
      SQFS_ENTRY_BASE_LENGTH = entryLen e := by
    rw [hns]
    simp only [entryLen, SQFS_ENTRY_BASE_LENGTH]
    omega
  have hP := set_dirent_of_known itype is32 is64
    (get_le32 tbl (s.table + 8) +
      (sqfs_parse_entry tbl (s.table + SQFS_DIR_HEADER_SIZE)).inode_offset)
    s.dentp (sqfs_parse_entry tbl (s.table + SQFS_DIR_HEADER_SIZE))
    (by rw [h12d, hety]; exact hk)
  have hred : sqfs_readdir tbl itype is32 is64 s =
      (some (readdirDent itype is32 is64 (get_le32 tbl (s.table + 8)) s.dentp
          (sqfs_parse_entry tbl (s.table + SQFS_DIR_HEADER_SIZE))),
       { s with
         header_count := get_le32 tbl s.table
       , header_inum := get_le32 tbl (s.table + 8)
       , entry := some (sqfs_parse_entry tbl (s.table + SQFS_DIR_HEADER_SIZE))
       , dentp := readdirDent itype is32 is64 (get_le32 tbl (s.table + 8))
           s.dentp (sqfs_parse_entry tbl (s.table + SQFS_DIR_HEADER_SIZE))
       , entry_count := (get_le32 tbl s.table + 1) - 1
       , size := if (s.size - (SQFS_DIR_HEADER_SIZE : Int)) >
             ((sqfs_parse_entry tbl (s.table + SQFS_DIR_HEADER_SIZE)).name_size
               + 1 + SQFS_ENTRY_BASE_LENGTH : Nat)
           then (s.size - (SQFS_DIR_HEADER_SIZE : Int)) -
             ((sqfs_parse_entry tbl (s.table + SQFS_DIR_HEADER_SIZE)).name_size
               + 1 + SQFS_ENTRY_BASE_LENGTH : Nat)
           else 0
       , table := s.table + SQFS_DIR_HEADER_SIZE +
           (sqfs_parse_entry tbl (s.table + SQFS_DIR_HEADER_SIZE)).name_size +
           1 + SQFS_ENTRY_BASE_LENGTH }) := by
    unfold sqfs_readdir
    rw [if_neg hsz0, hcnt, if_pos rfl,
      if_pos (by rw [hsz, h12v]; omega),
      if_pos (by rw [hsz, h12v, h3v]; omega)]
    dsimp only
    rw [hP]
    rfl
  have h8v : SQFS_ENTRY_BASE_LENGTH = 8 := rfl
  have hEe : entryLen e = 8 + e.name.length := by
    simp [entryLen, SQFS_ENTRY_BASE_LENGTH]
  rw [hred]
  dsimp only
  refine ⟨rfl, ?_, ?_, ?_, ?_, ?_⟩
  · rw [h12d, hoffn]
    rw [if_pos (by rw [hsz, h12v]; omega)]
    rw [hsz, h12v]
    omega
  · rw [hcount]
    omega
  · rw [h12d, h8v]
    omega
  · show (sqfs_parse_entry tbl (s.table + SQFS_DIR_HEADER_SIZE)).name = e.name
    rw [h12d]
    exact hnm
  · show dirTypeOf
        (sqfs_parse_entry tbl (s.table + SQFS_DIR_HEADER_SIZE)).etype =
      dirTypeOf e.etype
    rw [h12d, hety]

theorem readdir_drain_aux (tbl itype is32 is64 : Nat → Nat) :
    ∀ (later : List dir_header_rec) (es : List dir_entry_rec)
      (s : squashfs_dir_stream),
      (∀ e ∈ es, wfEntry e) → wfBlocks later →
      s.size = ((encEntries es).length : Int) +
        ((encBlocks later).length : Int) + 3 →
      s.entry_count = es.length →
      sqfs_agrees tbl s.table (encEntries es ++ encBlocks later) →
      (readdirN tbl itype is32 is64
          (es.length + totalEntries later + 1) s).map (Option.map dirProj)
        = expectedProjEntries es ++ expectedProjBlocks later := by
  intro later
  induction later with
  | nil =>
    intro es
    induction es with
    | nil =>
      intro s hwfe hwfb hsz hcnt hag
      have hsz3 : s.size = 3 := by
        rw [hsz]
        simp [encEntries_nil, encBlocks_nil]
      have hcnt0 : s.entry_count = 0 := by simpa using hcnt
      rw [show ([] : List dir_entry_rec).length + totalEntries [] + 1 = 1
        from rfl]
      rw [readdirN_succ]
      rw [sqfs_readdir_end_step tbl itype is32 is64 s hsz3 hcnt0]
      simp [readdirN, expectedProjEntries, expectedProjBlocks]
    | cons e es ih =>
      intro s hwfe hwfb hsz hcnt hag
      have hwe : wfEntry e := hwfe e (List.mem_cons_self e es)
      have hwfes : ∀ x ∈ es, wfEntry x :=
        fun x hx => hwfe x (List.mem_cons_of_mem e hx)
      have hag' : sqfs_agrees tbl s.table
          (encEntry e ++ (encEntries es ++ encBlocks [])) := by
        rw [encEntries_cons, List.append_assoc] at hag
        exact hag
      have hszlen : (encEntries (e :: es)).length =
          entryLen e + (encEntries es).length := by
        rw [encEntries_cons]
        simp [encEntry_length]
      have hsz' : s.size = (entryLen e : Int) +
          (((encEntries es).length : Int) +
            ((encBlocks ([] : List dir_header_rec)).length : Int) + 3) := by
        rw [hsz, hszlen]
        push_cast
        ring
      obtain ⟨hr1, hrsize, hrcnt, hrtable, hdname, hdtype⟩ :=
        sqfs_readdir_entry_step tbl itype is32 is64 s e
          (encEntries es ++ encBlocks []) _ es.length hwe hsz'
          (by omega) (by simpa using hcnt) hag'
      have hN : (e :: es).length + totalEntries [] + 1 =
          (es.length + totalEntries [] + 1) + 1 := by
        simp only [List.length_cons]
        omega
      rw [hN, readdirN_succ, List.map_cons, hr1]
      have hagnext : sqfs_agrees tbl
          ((sqfs_readdir tbl itype is32 is64 s).2.table)
          (encEntries es ++ encBlocks []) := by
        rw [hrtable]
        have h2 := sqfs_agrees_right tbl s.table _ _ hag'
        rw [encEntry_length] at h2
        exact h2
      have htail := ih (sqfs_readdir tbl itype is32 is64 s).2 hwfes hwfb
        (by rw [hrsize]) hrcnt hagnext
      rw [htail]
      simp [expectedProjEntries, dirProj, hdname, hdtype]
  | cons b bs ihb =>
    intro es
    induction es with
    | nil =>
      intro s hwfe hwfbs hsz hcnt hag
      have hbwf : wfBlock b := hwfbs b (List.mem_cons_self b bs)
      have hwfbs' : wfBlocks bs :=
        fun x hx => hwfbs x (List.mem_cons_of_mem b hx)
      obtain ⟨hbne, hblen32, hwfes_b⟩ := hbwf
      obtain ⟨e, es', hb⟩ : ∃ e es', b.entries = e :: es' := by
        cases hbent : b.entries with
        | nil => exact absurd hbent hbne
        | cons x xs => exact ⟨x, xs, rfl⟩
      have hwe : wfEntry e := hwfes_b e (by rw [hb]; exact List.mem_cons_self e es')
      have hencb : ((encBlocks (b :: bs)).length : Int) =
          (SQFS_DIR_HEADER_SIZE : Int) + ((encEntries b.entries).length : Int) +
            ((encBlocks bs).length : Int) := by
        rw [encBlocks_cons]
        push_cast [List.length_append, encBlock_length]
        ring
      have hsz' : s.size = (SQFS_DIR_HEADER_SIZE : Int) +
          ((encEntries b.entries).length : Int) +
          (((encBlocks bs).length : Int) + 3) := by
        rw [hsz, hencb]
        simp [encEntries_nil]
        ring
      have hag' : sqfs_agrees tbl s.table (encBlock b ++ encBlocks bs) := by
        rw [encBlocks_cons] at hag
        simpa [encEntries_nil] using hag
      obtain ⟨hr1, hrsize, hrcnt, hrtable, hdname, hdtype⟩ :=
        sqfs_readdir_header_step tbl itype is32 is64 s b e es'
          (encBlocks bs) _ hb ⟨hbne, hblen32, hwfes_b⟩ hsz'
          (by omega) (by simpa using hcnt) hag'
      have hN : ([] : List dir_entry_rec).length + totalEntries (b :: bs) + 1 =
          (es'.length + totalEntries bs + 1) + 1 := by
        rw [totalEntries_cons, hb]
        simp
        omega
      rw [hN, readdirN_succ, List.map_cons, hr1]
      have hassoc2 : sqfs_agrees tbl s.table
          ((le32 (b.entries.length - 1) ++ le32 b.start ++
             le32 b.inode_number) ++
           (encEntry e ++ (encEntries es' ++ encBlocks bs))) := by
        simpa [encBlock, hb, encEntries_cons, List.append_assoc] using hag'
      have hsh1 := sqfs_agrees_right tbl s.table _ _ hassoc2
      rw [show ((le32 (b.entries.length - 1) ++ le32 b.start ++
          le32 b.inode_number)).length = 12 from by simp [le32]] at hsh1
      have hsh2 := sqfs_agrees_right tbl (s.table + 12) _ _ hsh1
      rw [encEntry_length] at hsh2
      have hagnext : sqfs_agrees tbl
          ((sqfs_readdir tbl itype is32 is64 s).2.table)
          (encEntries es' ++ encBlocks bs) := by
        rw [hrtable]
        exact hsh2
      have hwfes' : ∀ x ∈ es', wfEntry x := by
        intro x hx
        exact hwfes_b x (by rw [hb]; exact List.mem_cons_of_mem e hx)
      have htail := ihb es' (sqfs_readdir tbl itype is32 is64 s).2 hwfes'
        hwfbs' (by rw [hrsize]; ring) hrcnt hagnext
      rw [htail]
      simp [expectedProjEntries, expectedProjBlocks, dirProj, hdname, hdtype,
        hb, List.map_append, List.append_assoc]
    | cons e es ih =>
      intro s hwfe hwfbs hsz hcnt hag
      have hwe : wfEntry e := hwfe e (List.mem_cons_self e es)
      have hwfes : ∀ x ∈ es, wfEntry x :=
        fun x hx => hwfe x (List.mem_cons_of_mem e hx)
      have hag' : sqfs_agrees tbl s.table
          (encEntry e ++ (encEntries es ++ encBlocks (b :: bs))) := by
        rw [encEntries_cons, List.append_assoc] at hag
        exact hag
      have hszlen : (encEntries (e :: es)).length =
          entryLen e + (encEntries es).length := by
        rw [encEntries_cons]
        simp [encEntry_length]
      have hsz' : s.size = (entryLen e : Int) +
          (((encEntries es).length : Int) +
            ((encBlocks (b :: bs)).length : Int) + 3) := by
        rw [hsz, hszlen]
        push_cast
        ring
      obtain ⟨hr1, hrsize, hrcnt, hrtable, hdname, hdtype⟩ :=
        sqfs_readdir_entry_step tbl itype is32 is64 s e
          (encEntries es ++ encBlocks (b :: bs)) _ es.length hwe hsz'
          (by omega) (by simpa using hcnt) hag'
      have hN : (e :: es).length + totalEntries (b :: bs) + 1 =
          (es.length + totalEntries (b :: bs) + 1) + 1 := by
        simp only [List.length_cons]
        omega
      rw [hN, readdirN_succ, List.map_cons, hr1]
      have hagnext : sqfs_agrees tbl
          ((sqfs_readdir tbl itype is32 is64 s).2.table)
          (encEntries es ++ encBlocks (b :: bs)) := by
        rw [hrtable]
        have h2 := sqfs_agrees_right tbl s.table _ _ hag'
        rw [encEntry_length] at h2
        exact h2
      have htail := ih (sqfs_readdir tbl itype is32 is64 s).2 hwfes hwfbs
        (by rw [hrsize]) hrcnt hagnext
      rw [htail]
      simp [expectedProjEntries, dirProj, hdname, hdtype]

/-- Claim C7 (amended): for every non-empty well-formed directory laid out
as headers and entries in the decompressed directory table, calling
sqfs_readdir entry_count + 1 times on the stream sqfs_opendir builds
(whose size starts at file_size - 12, with file_size the encoded
length plus the 3-byte slack of the on-disk convention) yields the
entry_count entries in on-disk order — each surfacing its name and
mapped type — followed by one end-of-stream return. -/
theorem sqfs_readdir_yields_entries_then_end (bs : List dir_header_rec)
    (tbl itype is32 is64 : Nat → Nat) (off : Nat)
    (hwf : wfBlocks bs) (hne : bs ≠ [])
    (hag : sqfs_agrees tbl off (encBlocks bs)) :
    (readdirN tbl itype is32 is64 (totalEntries bs + 1)
        (sqfs_opendir_stream tbl off ((encBlocks bs).length + 3))).map
      (Option.map dirProj)
      = expectedProjBlocks bs := by
  obtain ⟨b, bs', rfl⟩ : ∃ b bs', bs = b :: bs' := by
    cases bs with
    | nil => exact absurd rfl hne
    | cons x xs => exact ⟨x, xs, rfl⟩
  obtain ⟨hbne, hblen32, hwfes⟩ := hwf b (List.mem_cons_self b bs')
  have hwfbs' : wfBlocks bs' := fun x hx => hwf x (List.mem_cons_of_mem b hx)
  have hlen1 : 1 ≤ b.entries.length := List.length_pos.mpr hbne
  have hassoc : sqfs_agrees tbl off
      (le32 (b.entries.length - 1) ++ (le32 b.start ++ (le32 b.inode_number ++
        (encEntries b.entries ++ encBlocks bs')))) := by
    simpa [encBlocks_cons, encBlock, List.append_assoc] using hag
  have hcount : get_le32 tbl off = b.entries.length - 1 :=
    get_le32_of_agrees tbl off _ _ (by omega) hassoc
  have h4 := sqfs_agrees_right tbl off _ _ hassoc
  rw [le32_length] at h4
  have h8 := sqfs_agrees_right tbl (off + 4) _ _ h4
  rw [le32_length, show off + 4 + 4 = off + 8 from by omega] at h8
  have h12 := sqfs_agrees_right tbl (off + 8) _ _ h8
  rw [le32_length, show off + 8 + 4 = off + 12 from by omega] at h12
  have hencb : (encBlocks (b :: bs')).length =
      12 + (encEntries b.entries).length + (encBlocks bs').length := by
    rw [encBlocks_cons]
    simp [encBlock_length, SQFS_DIR_HEADER_SIZE]
  have hszi : (sqfs_opendir_stream tbl off
      ((encBlocks (b :: bs')).length + 3)).size =
      ((encEntries b.entries).length : Int) +
        ((encBlocks bs').length : Int) + 3 := by
    show (((encBlocks (b :: bs')).length + 3 : Nat) : Int) -
        (SQFS_DIR_HEADER_SIZE : Int) = _
    rw [hencb]
    push_cast
    have : ((SQFS_DIR_HEADER_SIZE : Nat) : Int) = 12 := rfl
    rw [this]
    ring
  have hcnti : (sqfs_opendir_stream tbl off
      ((encBlocks (b :: bs')).length + 3)).entry_count = b.entries.length := by
    show get_le32 tbl off + 1 = b.entries.length
    rw [hcount]
    omega
  have hagi : sqfs_agrees tbl (sqfs_opendir_stream tbl off
      ((encBlocks (b :: bs')).length + 3)).table
      (encEntries b.entries ++ encBlocks bs') := by
    show sqfs_agrees tbl (off + SQFS_DIR_HEADER_SIZE) _
    exact h12
  have hdr := readdir_drain_aux tbl itype is32 is64 bs' b.entries
    (sqfs_opendir_stream tbl off ((encBlocks (b :: bs')).length + 3))
    hwfes hwfbs' hszi hcnti hagi
  rw [show totalEntries (b :: bs') + 1 =
      b.entries.length + totalEntries bs' + 1 from by
    rw [totalEntries_cons]]
  rw [hdr]
  simp [expectedProjBlocks, expectedProjEntries, List.map_append,
    List.append_assoc]

/-- Counterexample to C7's empty-directory clause: on a stream opened for
an empty directory (file_size equal to the 3-byte sentinel) whose table
position happens to be followed by header-and-entry-shaped bytes, the
remaining size is 3 - 12 = -9, so the first sqfs_readdir call does not
return end-of-stream: it parses the adjacent bytes and yields a dirent. -/
theorem sqfs_readdir_empty_dir_first_call_yields_entry :
    (sqfs_opendir_stream emptyDirTbl 0 SQFS_EMPTY_FILE_SIZE).size = -9 ∧
    (sqfs_readdir emptyDirTbl inodeZero inodeZero inodeZero
        (sqfs_opendir_stream emptyDirTbl 0 SQFS_EMPTY_FILE_SIZE)).1.isSome
      = true := by
  refine ⟨by decide, by decide⟩

/-- Witness for C7's amended theorem: a concrete one-header directory with
two entries (a subdirectory named "ab", bytes 97 98, and a regular file
named "c", byte 99) drains in exactly three calls: the two entries then
end-of-stream. -/
theorem sqfs_readdir_yields_entries_then_end_witness :
    (readdirN witnessDirTbl inodeZero inodeZero inodeZero
        (totalEntries witnessDirBlocks + 1)
        (sqfs_opendir_stream witnessDirTbl 0
          ((encBlocks witnessDirBlocks).length + 3))).map (Option.map dirProj)
      = expectedProjBlocks witnessDirBlocks :=
  sqfs_readdir_yields_entries_then_end witnessDirBlocks witnessDirTbl
    inodeZero inodeZero inodeZero 0
    (by unfold wfBlocks wfBlock wfEntry knownEntryType; decide) (by decide)
    (by
      intro i hi
      show (encBlocks witnessDirBlocks).getD (0 + i) 0 =
        (encBlocks witnessDirBlocks).getD i 0
      rw [Nat.zero_add])
